import Mathlib

/-!
Shallow embedding of the wound-tracking backend (`src/backend/api.py`) of the
repository, together with theorems settling the specification claims.

Modelling conventions:
* Python floats are modelled as exact rationals (`ℚ`); `round(x, 2)` is
  modelled by `round2` below (round half up on exact rationals; the places
  where rounding is compared to unrounded values do not hinge on tie behaviour).
* The SQLite `measurements` table is modelled as a `List Measurement` in
  insertion order; `id INTEGER PRIMARY KEY AUTOINCREMENT` is the `id` field.
* `SELECT ... ORDER BY timestamp DESC LIMIT 2` is modelled by sorting the
  patient's rows by decreasing timestamp (a fixed, deterministic tie-break:
  later-inserted rows come later among equal timestamps) and taking 2.
* Python exceptions raised by external collaborators (PIL decode, the two
  Keras models, PNG/base64 encoding) are modelled by `Except String`-valued
  dependencies threaded into `predict`.
-/

namespace WoundApi

/-- Model of Python `round(x, 2)`: round to 2 decimal places.
Python rounds ties to even on binary floats; we use `round` on `ℚ`
(ties half up). No claim below depends on tie behaviour. -/
def round2 (q : ℚ) : ℚ := (round (q * 100) : ℚ) / 100

/-- One row of the `measurements` table (schema in `init_db`); `id` is the
AUTOINCREMENT primary key, `tissue_analysis` the JSON dict of class name to
percentage. -/
structure Measurement where
  id : ℕ
  patient_id : String
  timestamp : ℚ
  area : ℚ
  warning_level : ℕ
  is_diabetic : Bool
  redness_score : ℚ
  pus_score : ℚ
  tissue_analysis : List (String × ℚ)
deriving DecidableEq, Repr

/-- Rows of the table belonging to one patient
(`WHERE patient_id = ?`), in insertion order. -/
def filterPid (store : List Measurement) (pid : String) : List Measurement :=
  store.filter (fun m => m.patient_id == pid)

/-- Insert a row into a list already sorted by strictly/weakly decreasing
timestamp, keeping it sorted; among equal timestamps the inserted row goes
last. -/
def insertDesc (m : Measurement) : List Measurement → List Measurement
  | [] => [m]
  | x :: xs => if x.timestamp < m.timestamp then m :: x :: xs else x :: insertDesc m xs

/-- Model of `ORDER BY timestamp DESC` (insertion sort; deterministic
tie-break among equal timestamps). -/
def sortDesc : List Measurement → List Measurement
  | [] => []
  | x :: xs => insertDesc x (sortDesc xs)

/-- Model of
`SELECT ... WHERE patient_id = ? ORDER BY timestamp DESC LIMIT 2`. -/
def latestTwo (store : List Measurement) (pid : String) : List Measurement :=
  (sortDesc (filterPid store pid)).take 2

/-- Payload of the warning message strings produced by
`check_healing_progress`.  The Python code renders these with `:.2f`
(2-decimal display formatting); the payload carries the exact values. -/
inductive WarningMsg where
  /-- "Alert: Wound area has increased from {previous:.2f}% to {latest:.2f}%." -/
  | worsening (previous_area latest_area : ℚ)
  /-- "Warning: Healing has stalled. Improvement is only {improvement:.2f}%." -/
  | stalled (improvement : ℚ)
deriving DecidableEq, Repr

/-- Core two-point rule of `check_healing_progress` (api.py lines 68-75),
applied to the two fetched areas: `latest_area = rows[0][0]`,
`previous_area = rows[1][0]`. -/
def healingStatus (latest_area previous_area : ℚ) (is_diabetic : Bool) :
    ℕ × Option WarningMsg :=
  let stall_threshold : ℚ := if is_diabetic then 1 else 2
  if previous_area < latest_area then
    (2, some (.worsening previous_area latest_area))
  else
    let improvement : ℚ :=
      if 0 < previous_area then ((previous_area - latest_area) / previous_area) * 100 else 0
    if improvement < stall_threshold then (1, some (.stalled improvement))
    else (0, none)

/-- Model of `check_healing_progress(patient_id, is_diabetic)`:
fetch the two most recent areas for the patient; with fewer than two rows
return `(0, None)`. -/
def check_healing_progress (store : List Measurement) (pid : String)
    (is_diabetic : Bool) : ℕ × Option WarningMsg :=
  match latestTwo store pid with
  | latest :: previous :: _ => healingStatus latest.area previous.area is_diabetic
  | _ => (0, none)

/-- Model of `check_infection_proxy(patient_id)` (api.py lines 77-90):
with fewer than two rows return `None`; otherwise fire the message exactly
when redness strictly increased, latest pus exceeds 5.0 and area did not
decrease. -/
def check_infection_proxy (store : List Measurement) (pid : String) :
    Option String :=
  match latestTwo store pid with
  | latest :: previous :: _ =>
    if previous.redness_score < latest.redness_score ∧ 5 < latest.pus_score ∧
        previous.area ≤ latest.area then
      some "High suspicion of infection based on trends."
    else none
  | _ => none

/-- An RGB pixel (8-bit channel values as naturals). -/
def Pixel : Type := ℕ × ℕ × ℕ

instance : DecidableEq Pixel := by unfold Pixel; infer_instance

/-- Number of nonzero entries of a mask / indicator image
(`np.count_nonzero`). -/
def countNonzero (l : List ℕ) : ℕ := l.countP (fun x => x != 0)

/-- Model of `cv2.bitwise_and(image, image, mask=mask)`: keep a pixel where
the mask entry is nonzero, zero it elsewhere. -/
def maskedImage (image : List Pixel) (mask : List ℕ) : List Pixel :=
  (image.zip mask).map (fun pm => if pm.2 != 0 then pm.1 else ((0, 0, 0) : Pixel))

/-- Model of `analyze_wound_colors(image_array_rgb, mask_array)`
(api.py lines 42-58).  The pixelwise HSV band tests
(`cv2.cvtColor` to HSV followed by `cv2.inRange` with the fixed red/red-wrap/pus
bounds) are abstracted as the three pixel predicates `inRed1`, `inRed2`,
`inPus`; every theorem below holds for arbitrary band predicates.  The
`red_mask = mask_red1 + mask_red2` uint8 addition is kept (mod-256 overflow
included).  Scores are (band count / nonzero mask count) × 100 rounded to 2
decimals; an all-zero mask short-circuits to `(0, 0)`. -/
def analyze_wound_colors (inRed1 inRed2 inPus : Pixel → Bool)
    (image_array_rgb : List Pixel) (mask_array : List ℕ) : ℚ × ℚ :=
  if mask_array.sum = 0 then (0, 0)
  else
    let wound := maskedImage image_array_rgb mask_array
    let total_wound_pixels : ℕ := countNonzero mask_array
    let mask_red1 := wound.map (fun p => if inRed1 p then (255 : ℕ) else 0)
    let mask_red2 := wound.map (fun p => if inRed2 p then (255 : ℕ) else 0)
    let red_mask := (mask_red1.zip mask_red2).map (fun ab => (ab.1 + ab.2) % 256)
    let redness_score : ℚ := ((countNonzero red_mask : ℚ) / total_wound_pixels) * 100
    let pus_mask := wound.map (fun p => if inPus p then (255 : ℕ) else 0)
    let pus_score : ℚ := ((countNonzero pus_mask : ℚ) / total_wound_pixels) * 100
    (round2 redness_score, round2 pus_score)

/-- Model of `request.form.get('patient_id', 'default_patient')`
(api.py line 113). -/
def parse_patient_id (field : Option String) : String :=
  field.getD "default_patient"

/-- Model of Python `str.lower()` on ASCII strings: lowercase every
character. -/
def py_lower (s : String) : String := ⟨s.data.map Char.toLower⟩

/-- Model of api.py lines 114-115: default the field to `'false'`, then
`True if s.lower() == 'true' else False`. -/
def parse_is_diabetic (field : Option String) : Bool :=
  let s := field.getD "false"
  if py_lower s = "true" then true else false

/-- Fixed 2-class taxonomy (api.py line 100). -/
def class_names : Fin 2 → String :=
  fun i => if i = 0 then "Healthy Tissue" else "Infected/Necrotic"

/-- Model of `tf.nn.softmax` on a 2-logit vector, with the strictly positive
exponential modelled by an abstract function `E` (every theorem below assumes
only `∀ x, 0 < E x`, which `exp` satisfies). -/
def softmax (E : ℚ → ℚ) (logits : Fin 2 → ℚ) : Fin 2 → ℚ :=
  fun i => E (logits i) / (E (logits 0) + E (logits 1))

/-- Model of the dict comprehension on api.py line 128:
`{class_names[i]: float(scores[i]) * 100 for i in range(len(class_names))}`. -/
def tissue_results_of (E : ℚ → ℚ) (logits : Fin 2 → ℚ) : List (String × ℚ) :=
  [(class_names 0, softmax E logits 0 * 100), (class_names 1, softmax E logits 1 * 100)]

/-- Model of api.py line 123: threshold the probability map at 0.5 into the
binary mask (`(predicted_mask[0,:,:,0] > 0.5).astype(np.uint8)`), the map
flattened into a list. -/
def binary_of (probMap : List ℚ) : List ℕ :=
  probMap.map (fun p => if (1 : ℚ) / 2 < p then (1 : ℕ) else 0)

/-- Model of api.py line 124:
`wound_area = np.sum(predicted_mask_binary) / (224 * 224) * 100`
(not rounded here). -/
def wound_area_of (probMap : List ℚ) : ℚ :=
  (((binary_of probMap).sum : ℚ) / (224 * 224)) * 100

/-- Insertion-time core of `predict` (api.py lines 129-139): compute the
warning from the store as it is BEFORE the insert, append the new row carrying
that warning level, then run the infection check on the store WITH the new
row.  Returns (new store, warning_level, warning_message, infection_warning). -/
def record_measurement (store : List Measurement) (pid : String)
    (is_diabetic : Bool) (rowid : ℕ) (now wound_area redness pus : ℚ)
    (tissue : List (String × ℚ)) :
    List Measurement × ℕ × Option WarningMsg × Option String :=
  let wl := check_healing_progress store pid is_diabetic
  let row : Measurement :=
    { id := rowid, patient_id := pid, timestamp := now, area := wound_area,
      warning_level := wl.1, is_diabetic := is_diabetic,
      redness_score := redness, pus_score := pus, tissue_analysis := tissue }
  let store2 := store ++ [row]
  (store2, wl.1, wl.2, check_infection_proxy store2 pid)

/-- External collaborators of `/predict` that can raise Python exceptions,
modelled as `Except`-valued operations: image decode+resize (PIL),
the two Keras model calls, and the PNG/base64 mask encoding. -/
structure PredictDeps where
  decode : Except String (List Pixel)
  segment : List Pixel → Except String (List ℚ)
  classify : List Pixel → Except String (Fin 2 → ℚ)
  encode : List ℕ → Except String String

/-- JSON response body of a successful `/predict` (api.py lines 144-152). -/
structure Response where
  mask : String
  area : ℚ
  tissue_analysis : List (String × ℚ)
  warning : Option WarningMsg
  redness_score : ℚ
  pus_score : ℚ
  infection_warning : Option String
deriving DecidableEq, Repr

/-- Model of the `/predict` handler body (api.py lines 112-154).  The three
HSV band predicates and the positive exponential are threaded as parameters
(see `analyze_wound_colors`, `softmax`).  A raised exception anywhere in the
`try` block is returned as `Except.error` together with the store state at
that point; the row insert (lines 130-137) happens after all metrics are
computed and before the infection check and the mask encoding. -/
def predict (deps : PredictDeps) (inRed1 inRed2 inPus : Pixel → Bool)
    (E : ℚ → ℚ) (store : List Measurement) (rowid : ℕ) (now : ℚ)
    (patient_id_field is_diabetic_field : Option String) :
    List Measurement × Except String Response :=
  let patient_id := parse_patient_id patient_id_field
  let is_diabetic_bool := parse_is_diabetic is_diabetic_field
  match deps.decode with
  | .error e => (store, .error e)
  | .ok image_array_rgb =>
    match deps.segment image_array_rgb with
    | .error e => (store, .error e)
    | .ok probMap =>
      let predicted_mask_binary := binary_of probMap
      let wound_area := wound_area_of probMap
      let rp := analyze_wound_colors inRed1 inRed2 inPus image_array_rgb predicted_mask_binary
      match deps.classify image_array_rgb with
      | .error e => (store, .error e)
      | .ok logits =>
        let tissue_results := tissue_results_of E logits
        let out := record_measurement store patient_id is_diabetic_bool rowid now
          wound_area rp.1 rp.2 tissue_results
        match deps.encode predicted_mask_binary with
        | .error e => (out.1, .error e)
        | .ok img_str =>
          (out.1, .ok { mask := img_str, area := round2 wound_area,
                        tissue_analysis := tissue_results, warning := out.2.2.1,
                        redness_score := rp.1, pus_score := rp.2,
                        infection_warning := out.2.2.2 })

/-- Model of the query of `get_all_patients` (api.py lines 180-189): the
inner join keeps every row whose timestamp equals its patient's maximum
timestamp, projected to (patient_id, warning_level, is_diabetic).  The
`ORDER BY m.patient_id ASC` only permutes the rows and is omitted; all
claims about this query are order-insensitive (row counts and membership). -/
def all_patients_latest_status (store : List Measurement) :
    List (String × ℕ × Bool) :=
  (store.filter (fun m =>
      decide (∀ m' ∈ store, m'.patient_id = m.patient_id → m'.timestamp ≤ m.timestamp))).map
    (fun m => (m.patient_id, m.warning_level, m.is_diabetic))

/-- Follows the spec's words for claim C1 (NOT the code): the warning is
derived from the two most recent points of the patient's sequence once the
new measurement is included — latest = the just-computed measurement,
previous = the most recent prior stored row; with no prior row, level 0 and
no message. -/
def spec_warning_including_new (store : List Measurement) (pid : String)
    (is_diabetic : Bool) (wound_area : ℚ) : ℕ × Option WarningMsg :=
  match sortDesc (filterPid store pid) with
  | previous :: _ => healingStatus wound_area previous.area is_diabetic
  | [] => (0, none)

/-! Helper lemmas about the embedded store operations. -/

theorem length_insertDesc (m : Measurement) (l : List Measurement) :
    (insertDesc m l).length = l.length + 1 := by
  induction l with
  | nil => rfl
  | cons x xs ih =>
    unfold insertDesc
    split
    · rfl
    · simp [ih]

theorem length_sortDesc (l : List Measurement) :
    (sortDesc l).length = l.length := by
  induction l with
  | nil => rfl
  | cons x xs ih => simp [sortDesc, length_insertDesc, ih]

theorem insertDesc_cons_of_le (m r : Measurement) (s : List Measurement)
    (h : ¬ r.timestamp < m.timestamp) :
    insertDesc m (r :: s) = r :: insertDesc m s := by
  simp only [insertDesc, if_neg h]

theorem sortDesc_append_max (l : List Measurement) (r : Measurement)
    (h : ∀ x ∈ l, x.timestamp < r.timestamp) :
    sortDesc (l ++ [r]) = r :: sortDesc l := by
  induction l with
  | nil => rfl
  | cons x xs ih =>
    have hx : x.timestamp < r.timestamp := h x (List.mem_cons_self x xs)
    have hxs : ∀ y ∈ xs, y.timestamp < r.timestamp :=
      fun y hy => h y (List.mem_cons_of_mem x hy)
    calc sortDesc ((x :: xs) ++ [r]) = insertDesc x (sortDesc (xs ++ [r])) := rfl
      _ = insertDesc x (r :: sortDesc xs) := by rw [ih hxs]
      _ = r :: insertDesc x (sortDesc xs) :=
          insertDesc_cons_of_le x r _ (not_lt.mpr (le_of_lt hx))
      _ = r :: sortDesc (x :: xs) := rfl

theorem healingStatus_fst_mem (latest previous : ℚ) (diab : Bool) :
    (healingStatus latest previous diab).1 = 0 ∨
    (healingStatus latest previous diab).1 = 1 ∨
    (healingStatus latest previous diab).1 = 2 := by
  unfold healingStatus
  dsimp only
  split_ifs <;> simp

theorem check_healing_eq_match (store : List Measurement) (pid : String)
    (diab : Bool) :
    check_healing_progress store pid diab =
      (match sortDesc (filterPid store pid) with
       | a :: b :: _ => healingStatus a.area b.area diab
       | _ => (0, none)) := by
  unfold check_healing_progress latestTwo
  cases h : sortDesc (filterPid store pid) with
  | nil => rfl
  | cons a tl =>
    cases tl with
    | nil => rfl
    | cons b r => rfl

theorem check_infection_after_append (store : List Measurement) (pid : String)
    (row : Measurement) (hpid : row.patient_id = pid)
    (hlt : ∀ m ∈ store, m.patient_id = pid → m.timestamp < row.timestamp) :
    check_infection_proxy (store ++ [row]) pid =
      (match sortDesc (filterPid store pid) with
       | previous :: _ =>
         if previous.redness_score < row.redness_score ∧ 5 < row.pus_score ∧
             previous.area ≤ row.area then
           some "High suspicion of infection based on trends."
         else none
       | [] => none) := by
  have hfilter : filterPid (store ++ [row]) pid = filterPid store pid ++ [row] := by
    simp [filterPid, List.filter_append, hpid]
  have hmem : ∀ x ∈ filterPid store pid, x.timestamp < row.timestamp := by
    intro x hx
    rcases List.mem_filter.mp hx with ⟨hxs, hbeq⟩
    exact hlt x hxs (by simpa using hbeq)
  unfold check_infection_proxy latestTwo
  rw [hfilter, sortDesc_append_max _ _ hmem]
  cases h : sortDesc (filterPid store pid) with
  | nil => rfl
  | cons previous rest => rfl

theorem exists_max_rat (x : ℚ) (xs : List ℚ) :
    ∃ M, M ∈ x :: xs ∧ ∀ u ∈ x :: xs, u ≤ M := by
  induction xs generalizing x with
  | nil => exact ⟨x, by simp, by simp⟩
  | cons y ys ih =>
    obtain ⟨M, hM, hmax⟩ := ih y
    rcases le_total x M with hx | hx
    · refine ⟨M, List.mem_cons_of_mem x hM, ?_⟩
      intro u hu
      rcases List.mem_cons.mp hu with rfl | hu
      · exact hx
      · exact hmax u hu
    · refine ⟨x, List.mem_cons_self x (y :: ys), ?_⟩
      intro u hu
      rcases List.mem_cons.mp hu with rfl | hu
      · exact le_refl u
      · exact le_trans (hmax u hu) hx

theorem countP_max_eq_one (L : List ℚ) (hne : L ≠ []) (hnd : L.Nodup) :
    L.countP (fun t => decide (∀ u ∈ L, u ≤ t)) = 1 := by
  obtain ⟨x, xs, rfl⟩ : ∃ x xs, L = x :: xs := by
    cases L with
    | nil => exact absurd rfl hne
    | cons a l => exact ⟨a, l, rfl⟩
  obtain ⟨M, hM, hmax⟩ := exists_max_rat x xs
  have hcongr : (x :: xs).countP (fun t => decide (∀ u ∈ x :: xs, u ≤ t)) =
      (x :: xs).countP (fun t => t == M) := by
    apply List.countP_congr
    intro t ht
    simp only [decide_eq_true_eq, beq_iff_eq]
    constructor
    · intro hall
      exact le_antisymm (hmax t ht) (hall M hM)
    · intro heq
      subst heq
      exact hmax
  rw [hcongr, ← List.count_eq_countP]
  exact List.count_eq_one_of_mem hnd hM

/-! Theorems settling the claims. -/

/-- C8 (amended): provided the store has no duplicate rows and, within each
patient, no two distinct rows share a timestamp, the /patients query returns
exactly one row per patient occurring in the store — the row of that
patient's maximum-timestamp measurement, carrying its warning_level and
is_diabetic flag.  (With tied maximum timestamps the join returns one row per
tied measurement; see the counterexample.) -/
theorem latest_status_one_row_per_patient (store : List Measurement)
    (p : String) (hp : filterPid store p ≠ []) (hnd : store.Nodup)
    (hts : ∀ m1 ∈ store, ∀ m2 ∈ store, m1.patient_id = m2.patient_id →
      m1.timestamp = m2.timestamp → m1 = m2) :
    ∃ m ∈ store, m.patient_id = p ∧
      (∀ m' ∈ store, m'.patient_id = p → m'.timestamp ≤ m.timestamp) ∧
      (all_patients_latest_status store).filter (fun r => r.1 == p) =
        [(p, m.warning_level, m.is_diabetic)] := by
  classical
  set q : Measurement → Bool := fun m =>
    decide (∀ m' ∈ store, m'.patient_id = m.patient_id →
      m'.timestamp ≤ m.timestamp) with hq
  set f : Measurement → String × ℕ × Bool := fun m =>
    (m.patient_id, m.warning_level, m.is_diabetic) with hf
  have hstep1 : (all_patients_latest_status store).filter (fun r => r.1 == p) =
      ((filterPid store p).filter q).map f := by
    rw [all_patients_latest_status]
    rw [List.filter_map]
    congr 1
    rw [List.filter_filter]
    rw [filterPid, List.filter_filter]
    apply List.filter_congr
    intro m _
    simp [hf, hq, Bool.and_comm]
  have hmempid : ∀ m ∈ filterPid store p, m.patient_id = p := by
    intro m hm
    have := (List.mem_filter.mp hm).2
    simpa using this
  have hmemstore : ∀ m ∈ filterPid store p, m ∈ store := by
    intro m hm
    exact (List.mem_filter.mp hm).1
  set tsL : List ℚ := (filterPid store p).map (fun m => m.timestamp) with htsL
  have hstep2 : (filterPid store p).filter q =
      (filterPid store p).filter
        (fun m => decide (∀ u ∈ tsL, u ≤ m.timestamp)) := by
    apply List.filter_congr
    intro m hm
    simp only [hq, decide_eq_true_eq, decide_eq_decide]
    constructor
    · intro hall u hu
      rw [htsL] at hu
      obtain ⟨m', hm', rfl⟩ := List.mem_map.mp hu
      exact hall m' (hmemstore m' hm') ((hmempid m' hm').trans (hmempid m hm).symm)
    · intro hall m' hm' hpid
      apply hall
      rw [htsL]
      exact List.mem_map.mpr ⟨m', List.mem_filter.mpr
        ⟨hm', by simp [hpid, hmempid m hm]⟩, rfl⟩
  have htsne : tsL ≠ [] := by
    rw [htsL]
    intro hemp
    exact hp (List.map_eq_nil_iff.mp hemp)
  have htsnd : tsL.Nodup := by
    rw [htsL]
    apply List.Nodup.map_on
    · intro m1 hm1 m2 hm2 hts12
      exact hts m1 (hmemstore m1 hm1) m2 (hmemstore m2 hm2)
        ((hmempid m1 hm1).trans (hmempid m2 hm2).symm) hts12
    · exact List.Nodup.filter _ hnd
  have hlen : ((filterPid store p).filter
      (fun m => decide (∀ u ∈ tsL, u ≤ m.timestamp))).length = 1 := by
    rw [← List.countP_eq_length_filter]
    have := countP_max_eq_one tsL htsne htsnd
    rw [htsL] at this ⊢
    rw [List.countP_map] at this
    exact this
  have hlenq : ((filterPid store p).filter q).length = 1 := by
    rw [hstep2]
    exact hlen
  obtain ⟨a, ha⟩ := List.length_eq_one.mp hlenq
  have hamem : a ∈ (filterPid store p).filter q := by
    rw [ha]
    exact List.mem_singleton_self a
  obtain ⟨hapid, haq⟩ := List.mem_filter.mp hamem
  simp only [hq] at haq
  have haqd := of_decide_eq_true haq
  refine ⟨a, hmemstore a hapid, hmempid a hapid, ?_, ?_⟩
  · intro m' hm' hpid'
    exact haqd m' hm' (hpid'.trans (hmempid a hapid).symm)
  · rw [hstep1, ha]
    simp [hf, hmempid a hapid]

/-- Witness for C8 (amended) on a one-row store. -/
theorem latest_status_one_row_per_patient_witness :
    ∃ m ∈ [{ id := 1, patient_id := "a", timestamp := 0, area := 4, warning_level := 2,
             is_diabetic := true, redness_score := 0, pus_score := 0,
             tissue_analysis := [] : Measurement}], m.patient_id = "a" ∧
      (∀ m' ∈ [{ id := 1, patient_id := "a", timestamp := 0, area := 4, warning_level := 2,
                 is_diabetic := true, redness_score := 0, pus_score := 0,
                 tissue_analysis := [] : Measurement}],
        m'.patient_id = "a" → m'.timestamp ≤ m.timestamp) ∧
      (all_patients_latest_status
        [{ id := 1, patient_id := "a", timestamp := 0, area := 4, warning_level := 2,
           is_diabetic := true, redness_score := 0, pus_score := 0,
           tissue_analysis := [] : Measurement}]).filter (fun r => r.1 == "a") =
        [("a", m.warning_level, m.is_diabetic)] :=
  latest_status_one_row_per_patient _ "a" (by decide) (by decide) (by decide)

/-- Counterexample to C8 as stated: two rows of the same patient with the
same (maximum) timestamp both survive the max-timestamp join, so the query
returns two rows for one distinct patient_id. -/
theorem latest_status_tie_two_rows_cex :
    ((all_patients_latest_status
      [{ id := 1, patient_id := "a", timestamp := 0, area := 0, warning_level := 0,
         is_diabetic := false, redness_score := 0, pus_score := 0, tissue_analysis := [] },
       { id := 2, patient_id := "a", timestamp := 0, area := 0, warning_level := 1,
         is_diabetic := true, redness_score := 0, pus_score := 0, tissue_analysis := [] }]).filter
      (fun r => r.1 == "a")).length = 2 ∧ (2 : ℕ) ≠ 1 := by decide

/-- C1 (amended): at insertion time the warning_level and message are
computed from the two most recent rows stored BEFORE the insert (latest = the
most recent prior stored row, previous = the second most recent); the
just-computed measurement does not enter the warning computation.  The
infection signal, computed after the insert, does compare the just-computed
measurement (latest) against the most recent prior stored row (previous). -/
theorem insertion_time_signal_rows (store : List Measurement) (pid : String)
    (diab : Bool) (rowid : ℕ) (now wound_area redness pus : ℚ)
    (tissue : List (String × ℚ))
    (hlt : ∀ m ∈ store, m.patient_id = pid → m.timestamp < now) :
    (((record_measurement store pid diab rowid now wound_area redness pus tissue).2.1,
      (record_measurement store pid diab rowid now wound_area redness pus tissue).2.2.1) =
      (match sortDesc (filterPid store pid) with
       | a :: b :: _ => healingStatus a.area b.area diab
       | _ => (0, none))) ∧
    ((record_measurement store pid diab rowid now wound_area redness pus tissue).2.2.2 =
      (match sortDesc (filterPid store pid) with
       | previous :: _ =>
         if previous.redness_score < redness ∧ 5 < pus ∧
             previous.area ≤ wound_area then
           some "High suspicion of infection based on trends."
         else none
       | [] => none)) := by
  constructor
  · exact check_healing_eq_match store pid diab
  · exact check_infection_after_append store pid
      { id := rowid, patient_id := pid, timestamp := now, area := wound_area,
        warning_level := (check_healing_progress store pid diab).1,
        is_diabetic := diab, redness_score := redness, pus_score := pus,
        tissue_analysis := tissue } rfl hlt

/-- Witness for C1 (amended) on a store with one prior row: the warning is
(0, none) because only one PRIOR row exists, while the infection check sees
two points (the prior row and the just-computed one) and fires. -/
theorem insertion_time_signal_rows_witness :
    (((record_measurement
        [{ id := 1, patient_id := "p", timestamp := 1, area := 10, warning_level := 0,
           is_diabetic := false, redness_score := 1, pus_score := 0, tissue_analysis := [] }]
        "p" false 2 2 12 3 7 []).2.1,
      (record_measurement
        [{ id := 1, patient_id := "p", timestamp := 1, area := 10, warning_level := 0,
           is_diabetic := false, redness_score := 1, pus_score := 0, tissue_analysis := [] }]
        "p" false 2 2 12 3 7 []).2.2.1) =
      (match sortDesc (filterPid
        [{ id := 1, patient_id := "p", timestamp := 1, area := 10, warning_level := 0,
           is_diabetic := false, redness_score := 1, pus_score := 0, tissue_analysis := [] }]
        "p") with
       | a :: b :: _ => healingStatus a.area b.area false
       | _ => ((0 : ℕ), none))) ∧
    ((record_measurement
        [{ id := 1, patient_id := "p", timestamp := 1, area := 10, warning_level := 0,
           is_diabetic := false, redness_score := 1, pus_score := 0, tissue_analysis := [] }]
        "p" false 2 2 12 3 7 []).2.2.2 =
      (match sortDesc (filterPid
        [{ id := 1, patient_id := "p", timestamp := 1, area := 10, warning_level := 0,
           is_diabetic := false, redness_score := 1, pus_score := 0, tissue_analysis := [] }]
        "p") with
       | previous :: _ =>
         if previous.redness_score < (3 : ℚ) ∧ (5 : ℚ) < 7 ∧
             previous.area ≤ (12 : ℚ) then
           some "High suspicion of infection based on trends."
         else none
       | [] => none)) :=
  insertion_time_signal_rows _ "p" false 2 2 12 3 7 [] (by decide)

/-- Counterexample to C1 as stated: with prior stored areas 10 (t=1) then 20
(t=2) and a just-computed area of 5, the code computes warning level 2
(comparing the two PRIOR rows 20 vs 10), whereas comparing the just-computed
measurement (5, as latest) against the prior stored row (20, as previous) as
the claim states yields level 0. -/
theorem warning_ignores_just_computed_cex :
    (record_measurement
      [{ id := 1, patient_id := "p", timestamp := 1, area := 10, warning_level := 0,
         is_diabetic := false, redness_score := 0, pus_score := 0, tissue_analysis := [] },
       { id := 2, patient_id := "p", timestamp := 2, area := 20, warning_level := 0,
         is_diabetic := false, redness_score := 0, pus_score := 0, tissue_analysis := [] }]
      "p" false 3 3 5 0 0 []).2.1 = 2 ∧
    (spec_warning_including_new
      [{ id := 1, patient_id := "p", timestamp := 1, area := 10, warning_level := 0,
         is_diabetic := false, redness_score := 0, pus_score := 0, tissue_analysis := [] },
       { id := 2, patient_id := "p", timestamp := 2, area := 20, warning_level := 0,
         is_diabetic := false, redness_score := 0, pus_score := 0, tissue_analysis := [] }]
      "p" false 5).1 = 0 ∧ (2 : ℕ) ≠ 0 := by
  refine ⟨by decide, ?_, by decide⟩
  show (healingStatus 5 20 false).1 = 0
  unfold healingStatus
  norm_num

theorem binary_sum_eq_countP (probMap : List ℚ) :
    (binary_of probMap).sum =
      probMap.countP (fun p => decide ((1 : ℚ) / 2 < p)) := by
  induction probMap with
  | nil => rfl
  | cons p ps ih =>
    simp only [binary_of, List.map_cons, List.sum_cons, List.countP_cons] at ih ⊢
    by_cases hp : (1 : ℚ) / 2 < p
    · rw [if_pos hp, decide_eq_true hp, ih]
      simp [Nat.add_comm]
    · rw [if_neg hp, decide_eq_false hp, ih]
      simp

/-- C6 (amended): the area RETURNED to the caller is the rounded value
round2((count of probabilities above 0.5) / (224×224) × 100); the area field
of the STORED row is the same quantity WITHOUT rounding. -/
theorem predict_area_rounding (deps : PredictDeps)
    (inRed1 inRed2 inPus : Pixel → Bool) (E : ℚ → ℚ)
    (store : List Measurement) (rowid : ℕ) (now : ℚ)
    (pidf diabf : Option String) (image : List Pixel) (probMap : List ℚ)
    (logits : Fin 2 → ℚ) (s : String)
    (h1 : deps.decode = .ok image)
    (h2 : deps.segment image = .ok probMap)
    (h3 : deps.classify image = .ok logits)
    (h4 : deps.encode (binary_of probMap) = .ok s) :
    ∃ resp : Response,
      (predict deps inRed1 inRed2 inPus E store rowid now pidf diabf).2 = .ok resp ∧
      resp.area =
        round2 (((probMap.countP (fun p => decide ((1 : ℚ) / 2 < p)) : ℚ) /
          (224 * 224)) * 100) ∧
      ((predict deps inRed1 inRed2 inPus E store rowid now pidf diabf).1.getLast?).map
          (fun m => m.area) =
        some (((probMap.countP (fun p => decide ((1 : ℚ) / 2 < p)) : ℚ) /
          (224 * 224)) * 100) := by
  have harea : wound_area_of probMap =
      ((probMap.countP (fun p => decide ((1 : ℚ) / 2 < p)) : ℚ) / (224 * 224)) * 100 := by
    rw [wound_area_of, binary_sum_eq_countP]
  simp only [predict, h1, h2, h3, h4, record_measurement]
  exact ⟨_, rfl, by rw [harea], by rw [List.getLast?_concat]; simp [harea]⟩

/-- Witness for C6 (amended) with a one-pixel probability map above threshold
and trivially succeeding collaborators. -/
theorem predict_area_rounding_witness :
    ∃ resp : Response,
      (predict
        { decode := .ok [], segment := fun _ => .ok [1],
          classify := fun _ => .ok (fun _ => 0), encode := fun _ => .ok "" }
        (fun _ => false) (fun _ => false) (fun _ => false) (fun _ => 1)
        [] 1 1 none none).2 = .ok resp ∧
      resp.area =
        round2 (((List.countP (fun p => decide ((1 : ℚ) / 2 < p)) [1] : ℚ) /
          (224 * 224)) * 100) ∧
      ((predict
        { decode := .ok [], segment := fun _ => .ok [1],
          classify := fun _ => .ok (fun _ => 0), encode := fun _ => .ok "" }
        (fun _ => false) (fun _ => false) (fun _ => false) (fun _ => 1)
        [] 1 1 none none).1.getLast?).map (fun m => m.area) =
        some (((List.countP (fun p => decide ((1 : ℚ) / 2 < p)) [1] : ℚ) /
          (224 * 224)) * 100) :=
  predict_area_rounding _ _ _ _ _ [] 1 1 none none [] [1] (fun _ => 0) ""
    rfl rfl rfl rfl

/-- Counterexample to C6 as stated: a probability map with exactly one pixel
above threshold stores area 100/50176 ≈ 0.001993, whose 2-decimal rounding is
0; the stored field is the unrounded value, so it differs from the rounded
one the claim asserts. -/
theorem stored_area_not_rounded_cex :
    ((predict
        { decode := .ok [], segment := fun _ => .ok [1],
          classify := fun _ => .ok (fun _ => 0), encode := fun _ => .ok "" }
        (fun _ => false) (fun _ => false) (fun _ => false) (fun _ => 1)
        [] 1 1 none none).1.map (fun m => m.area)) = [100 / 50176] ∧
    round2 ((100 : ℚ) / 50176) = 0 ∧ ((100 : ℚ) / 50176) ≠ 0 := by
  refine ⟨?_, ?_, by norm_num⟩
  · simp only [predict, record_measurement, List.nil_append, List.map_cons,
      List.map_nil]
    norm_num [wound_area_of, binary_of]
  · have hr : round (((100 : ℚ) / 50176) * 100) = 0 := by
      rw [round_eq]
      apply Int.floor_eq_zero_iff.mpr
      constructor <;> norm_num
    rw [round2, hr]
    norm_num

/-- C7 (amended): a failure in any computation step BEFORE the append (image
decode, segmentation model, classifier model) propagates the error to the
caller and leaves the store unchanged — the append happens only after all
metrics are computed. -/
theorem predict_errors_before_append (deps : PredictDeps)
    (inRed1 inRed2 inPus : Pixel → Bool) (E : ℚ → ℚ)
    (store : List Measurement) (rowid : ℕ) (now : ℚ)
    (pidf diabf : Option String) (e : String) :
    (deps.decode = .error e →
      predict deps inRed1 inRed2 inPus E store rowid now pidf diabf =
        (store, .error e)) ∧
    (∀ image, deps.decode = .ok image → deps.segment image = .error e →
      predict deps inRed1 inRed2 inPus E store rowid now pidf diabf =
        (store, .error e)) ∧
    (∀ image probMap, deps.decode = .ok image →
      deps.segment image = .ok probMap → deps.classify image = .error e →
      predict deps inRed1 inRed2 inPus E store rowid now pidf diabf =
        (store, .error e)) := by
  refine ⟨fun h => ?_, fun image h h2 => ?_, fun image probMap h h2 h3 => ?_⟩
  · simp only [predict, h]
  · simp only [predict, h, h2]
  · simp only [predict, h, h2, h3]

/-- Witness for C7 (amended): a failing decoder leaves the empty store empty
and returns its error. -/
theorem predict_errors_before_append_witness :
    predict
      { decode := .error "bad image", segment := fun _ => .ok [],
        classify := fun _ => .ok (fun _ => 0), encode := fun _ => .ok "" }
      (fun _ => false) (fun _ => false) (fun _ => false) (fun _ => 1)
      [] 1 1 none none = ([], .error "bad image") :=
  (predict_errors_before_append _ _ _ _ _ [] 1 1 none none "bad image").1 rfl

/-- Counterexample to C7 as stated: when the mask PNG/base64 encoding fails
AFTER the append, the caller receives an error yet the new row stays in the
store, so the store state is not unchanged on this failure. -/
theorem post_append_failure_writes_row_cex :
    ((predict
        { decode := .ok [], segment := fun _ => .ok [],
          classify := fun _ => .ok (fun _ => 0), encode := fun _ => .error "boom" }
        (fun _ => false) (fun _ => false) (fun _ => false) (fun _ => 1)
        [] 1 1 none none).1.length = 1) ∧
    ((predict
        { decode := .ok [], segment := fun _ => .ok [],
          classify := fun _ => .ok (fun _ => 0), encode := fun _ => .error "boom" }
        (fun _ => false) (fun _ => false) (fun _ => false) (fun _ => 1)
        [] 1 1 none none).2 = .error "boom") ∧ (1 : ℕ) ≠ 0 := by
  refine ⟨rfl, rfl, by decide⟩

/-- C2: on the non-worsening branch (`latest.area ≤ previous.area`, areas
nonnegative), the improvement is `(previous − latest) / previous × 100` (0 when
`previous = 0`), and the result is level 1 with the stalled message exactly
when improvement is strictly below the stall threshold (1.0 when diabetic,
2.0 otherwise); improvement equal to the threshold is not a stall. -/
theorem stall_branch_matches_spec (latest previous : ℚ) (diab : Bool)
    (h1 : latest ≤ previous) (h2 : 0 ≤ previous) :
    healingStatus latest previous diab =
      (let improvement : ℚ :=
        if previous = 0 then 0 else ((previous - latest) / previous) * 100
       if improvement < (if diab then (1 : ℚ) else 2) then
         (1, some (.stalled improvement))
       else (0, none)) := by
  have hnl : ¬ previous < latest := not_lt.mpr h1
  rcases eq_or_lt_of_le h2 with h0 | h0
  · have h0' : previous = 0 := h0.symm
    subst h0'
    cases diab <;> (unfold healingStatus; rw [if_neg hnl]; norm_num)
  · unfold healingStatus
    rw [if_neg hnl]
    simp only [if_pos h0, if_neg h0.ne']

/-- Witness for C2 at latest = 1, previous = 2, non-diabetic: improvement 50%
is not a stall. -/
theorem stall_branch_matches_spec_witness :
    healingStatus 1 2 false =
      (let improvement : ℚ :=
        if (2 : ℚ) = 0 then 0 else (((2 : ℚ) - 1) / 2) * 100
       if improvement < (if false then (1 : ℚ) else 2) then
         (1, some (.stalled improvement))
       else (0, none)) :=
  stall_branch_matches_spec 1 2 false (by norm_num) (by norm_num)

/-- C3: with at least two stored rows for the patient, the infection signal
fires if and only if redness strictly increased, latest pus exceeds 5.0, and
area did not decrease, over the two most recent rows; so making any one
condition false suppresses the signal. -/
theorem infection_iff_three_conditions (store : List Measurement) (pid : String)
    (a b : Measurement) (rest : List Measurement)
    (h : sortDesc (filterPid store pid) = a :: b :: rest) :
    check_infection_proxy store pid ≠ none ↔
      (b.redness_score < a.redness_score ∧ 5 < a.pus_score ∧ b.area ≤ a.area) := by
  unfold check_infection_proxy latestTwo
  rw [h]
  simp only [List.take_succ_cons, List.take_zero]
  split_ifs with hc
  · simpa using hc
  · simpa using hc

/-- Witness for C3: two rows with rising redness, pus 6 > 5 and growing area
fire the signal. -/
theorem infection_iff_three_conditions_witness :
    check_infection_proxy
      [{ id := 1, patient_id := "p", timestamp := 1, area := 10, warning_level := 0,
         is_diabetic := false, redness_score := 1, pus_score := 0, tissue_analysis := [] },
       { id := 2, patient_id := "p", timestamp := 2, area := 12, warning_level := 0,
         is_diabetic := false, redness_score := 2, pus_score := 6, tissue_analysis := [] }]
      "p" ≠ none ↔ ((1 : ℚ) < 2 ∧ (5 : ℚ) < 6 ∧ (10 : ℚ) ≤ 12) :=
  infection_iff_three_conditions _ "p"
    { id := 2, patient_id := "p", timestamp := 2, area := 12, warning_level := 0,
      is_diabetic := false, redness_score := 2, pus_score := 6, tissue_analysis := [] }
    { id := 1, patient_id := "p", timestamp := 1, area := 10, warning_level := 0,
      is_diabetic := false, redness_score := 1, pus_score := 0, tissue_analysis := [] }
    [] (by decide)

/-- C4: an all-zero mask makes the analyzer return (0, 0) through the
short-circuit, for any band predicates and any image; and whenever the
division branch is reached (mask sum nonzero) the divisor
`total_wound_pixels` is strictly positive, so the division by the masked
pixel count is unreachable on an all-zero mask. -/
theorem analyze_zero_mask_safe (inRed1 inRed2 inPus : Pixel → Bool)
    (image : List Pixel) (mask : List ℕ) :
    (mask.sum = 0 →
      analyze_wound_colors inRed1 inRed2 inPus image mask = (0, 0)) ∧
    (mask.sum ≠ 0 → 0 < countNonzero mask) := by
  constructor
  · intro h
    simp [analyze_wound_colors, h]
  · intro h
    by_contra h0
    have hz : countNonzero mask = 0 := by omega
    have hall : ∀ x ∈ mask, x = 0 := by
      intro x hx
      have := List.countP_eq_zero.mp hz x hx
      simpa using this
    exact h (List.sum_eq_zero hall)

/-- Witness for C4: the zero mask [0,0,0] short-circuits to (0,0); the mask
[1] reaches the division branch with a positive divisor. -/
theorem analyze_zero_mask_safe_witness :
    analyze_wound_colors (fun _ => true) (fun _ => true) (fun _ => true)
      [] [0, 0, 0] = (0, 0) ∧ 0 < countNonzero [1] :=
  ⟨(analyze_zero_mask_safe (fun _ => true) (fun _ => true) (fun _ => true)
      [] [0, 0, 0]).1 (by decide),
   (analyze_zero_mask_safe (fun _ => true) (fun _ => true) (fun _ => true)
      [] [1]).2 (by decide)⟩

/-- C5: the warning level is always 0, 1 or 2, and with fewer than two stored
rows for the patient the healing check returns (0, none) and the infection
check returns none. -/
theorem warning_level_range_and_min_points (store : List Measurement)
    (pid : String) (diab : Bool) :
    ((check_healing_progress store pid diab).1 = 0 ∨
     (check_healing_progress store pid diab).1 = 1 ∨
     (check_healing_progress store pid diab).1 = 2) ∧
    ((filterPid store pid).length < 2 →
      check_healing_progress store pid diab = (0, none) ∧
      check_infection_proxy store pid = none) := by
  constructor
  · unfold check_healing_progress
    cases h : latestTwo store pid with
    | nil => simp
    | cons a tl =>
      cases tl with
      | nil => simp
      | cons b r => exact healingStatus_fst_mem a.area b.area diab
  · intro hlen
    have hs : (sortDesc (filterPid store pid)).length < 2 := by
      rw [length_sortDesc]; exact hlen
    cases h : sortDesc (filterPid store pid) with
    | nil => simp [check_healing_progress, check_infection_proxy, latestTwo, h]
    | cons a tl =>
      cases htl : tl with
      | nil => simp [check_healing_progress, check_infection_proxy, latestTwo, h, htl]
      | cons b r =>
        rw [h, htl] at hs
        simp at hs
        omega

/-- Witness for C5 on the empty store. -/
theorem warning_level_range_and_min_points_witness :
    check_healing_progress [] "p" false = (0, none) ∧
    check_infection_proxy [] "p" = none :=
  (warning_level_range_and_min_points [] "p" false).2 (by decide)

/-- C9: for any strictly positive exponential model and any 2-class logit
vector, the tissue percentages (softmax × 100) sum to exactly 100 in exact
arithmetic. -/
theorem tissue_percentages_sum_100 (E : ℚ → ℚ) (hE : ∀ x, 0 < E x)
    (logits : Fin 2 → ℚ) :
    ((tissue_results_of E logits).map Prod.snd).sum = 100 := by
  have hpos : 0 < E (logits 0) + E (logits 1) := add_pos (hE _) (hE _)
  simp only [tissue_results_of, softmax, List.map_cons, List.map_nil,
    List.sum_cons, List.sum_nil]
  field_simp
  ring

/-- Witness for C9 with the constant positive exponential and zero logits. -/
theorem tissue_percentages_sum_100_witness :
    ((tissue_results_of (fun _ => 1) (fun _ => 0)).map Prod.snd).sum = 100 :=
  tissue_percentages_sum_100 (fun _ => 1) (fun _ => one_pos) (fun _ => 0)

/-- C10: a missing patient_id form field becomes "default_patient"; a missing
is_diabetic field yields false; a supplied is_diabetic string is treated as
true exactly when it equals "true" case-insensitively (its lowercasing is
"true"). -/
theorem form_field_parsing :
    parse_patient_id none = "default_patient" ∧
    parse_is_diabetic none = false ∧
    (∀ s : String, parse_is_diabetic (some s) = true ↔ py_lower s = "true") := by
  refine ⟨rfl, by decide, fun s => ?_⟩
  simp [parse_is_diabetic]

end WoundApi
